import Mathlib

/-!
Verification of the CreditRater frontend and its documented backend contract.

The repository ships the browser code (a React app under frontend/src and a
legacy plain-JS page script) together with process-launch scripts.  The HTTP
backend (token/cost estimator, autocut heuristic, preprocess route, industry
reference data) is documented in the specification but its source is not part
of the repository, so those pieces are modelled here from the specification
text; every such definition is marked in its doc comment.  Everything else is
a direct shallow embedding of the JavaScript sources.
-/

namespace CreditRater

/-! ## Character-level string primitives

The JavaScript string operations used by the sources (trim, split, lowercase,
numeric parsing) are embedded character-wise over the underlying character
list of a Lean string, so that every definition evaluates on concrete
inputs. -/

/-- Embeds String.prototype.trim: drop whitespace from both ends. -/
def trimChars (l : List Char) : List Char :=
  ((l.dropWhile Char.isWhitespace).reverse.dropWhile Char.isWhitespace).reverse

/-- Trim of a whole string. -/
def jsTrim (s : String) : String := ⟨trimChars s.data⟩

/-- Split a character list on a separator character; like
String.prototype.split, the result always has at least one (possibly empty)
token. -/
def splitOnChar (c : Char) : List Char → List (List Char)
  | [] => [[]]
  | x :: xs =>
    match splitOnChar c xs with
    | [] => [[]]
    | y :: ys => if x = c then [] :: y :: ys else (x :: y) :: ys

/-- Value of a digit string read left to right. -/
def digitsToNat (l : List Char) : Nat :=
  l.foldl (fun a c => a * 10 + (c.toNat - 48)) 0

/-- Parse a non-empty all-digit character list as a natural number. -/
def charsToNat? (l : List Char) : Option Nat :=
  if !l.isEmpty && l.all Char.isDigit then some (digitsToNat l) else none

/-! ## Rendering modes (frontend/src/components/ModeSelector.js) -/

/-- The three rendering modes offered by ModeSelector.js. -/
def validModes : List String := ["text", "text+layout", "page_images"]

/-- Modelled from the spec: the backend estimator treats a missing or invalid
mode as "text" (spec 4.2: "no error paths beyond missing/invalid mode
(defaults to \"text\")"). -/
def normalizeMode (mode : String) : String :=
  if validModes.contains mode then mode else "text"

/-- Modelled from the spec: the fixed per-mode token/page constant of the
estimator (spec 4.2).  The concrete constants are representative; the spec
fixes only that each mode has one fixed constant. -/
def tokensPerPageOf : String → Nat
  | "text+layout" => 900
  | "page_images" => 1500
  | _ => 600

/-- Tokens per page after mode normalisation. -/
def tokensPerPage (mode : String) : Nat :=
  tokensPerPageOf (normalizeMode mode)

/-- Modelled from the spec: the fixed output-token estimate added by the
estimator (spec 4.2). -/
def outputTokensEst : Nat := 1200

/-- Modelled from the spec: static price per input token, in nano-dollars. -/
def priceInNano : Nat := 150

/-- Modelled from the spec: static price per output token, in nano-dollars. -/
def priceOutNano : Nat := 600

/-- Result shape of `POST /estimate` / `/estimate_tokens_cost` (spec 6). -/
structure Estimate where
  input_tokens : Nat
  output_tokens : Nat
  cost_nano_usd : Nat
deriving DecidableEq, Repr

/-- Modelled from the spec: the backend token/cost estimator (spec 4.2).
Multiply the retained page count by the per-mode constant, add the fixed
output-token estimate, and apply the static price-per-token table. -/
def estimateTokensCost (mode : String) (retainedPages : Nat) : Estimate :=
  let inTok := retainedPages * tokensPerPage mode
  { input_tokens := inTok
    output_tokens := outputTokensEst
    cost_nano_usd := inTok * priceInNano + outputTokensEst * priceOutNano }

/-! ## Page-list parsing and the preprocess route -/

/-- Parse one comma-separated token of a page list: either a singleton page
number or a range written lo-hi (as in the Force cut placeholder
"e.g. 11, 59-128 (ranges allowed)"). -/
def parseRangeToken (tok : List Char) : List Nat :=
  match splitOnChar '-' tok with
  | [a] =>
    match charsToNat? (trimChars a) with
    | some n => [n]
    | none => []
  | [a, b] =>
    match charsToNat? (trimChars a), charsToNat? (trimChars b) with
    | some lo, some hi => List.range' lo (hi + 1 - lo)
    | _, _ => []
  | _ => []

/-- Parse a full comma-separated page list such as "1-5, 8, 13". -/
def parsePageList (s : String) : List Nat :=
  ((splitOnChar ',' s.data).map (fun tok => parseRangeToken (trimChars tok))).flatten

/-- Result shape of `POST /preprocess-pdf` (spec 6). -/
structure PreprocessResult where
  pages_removed : List Nat
  kept_pages : List Nat
deriving DecidableEq, Repr

/-- Modelled from the spec: the backend `POST /preprocess-pdf` route.  Its
removal set is the union of the autocut suggestion and the parsed force_cut
list, restricted to valid 1-based page indices, minus every page present in
the parsed force_keep list (spec 8: a page index present in force_keep must
never appear in the final removal set). -/
def preprocessPdf (pageCount : Nat) (autocutSuggestion : List Nat)
    (forceCut forceKeep : String) : PreprocessResult :=
  let keep := parsePageList forceKeep
  let removed := (autocutSuggestion ++ parsePageList forceCut).filter
    (fun p => decide (1 ≤ p) && decide (p ≤ pageCount) && !(decide (p ∈ keep)))
  { pages_removed := removed
    kept_pages := (List.range' 1 pageCount).filter (fun p => !(decide (p ∈ removed))) }

/-! ## Autocut heuristic (modelled from spec 4.1) -/

/-- Modelled from the spec: the base keyword list of the autocut heuristic
(glossary, disclaimer, appendix markers; spec 4.1). -/
def baseKeywords : List String := ["glossary", "disclaimer", "appendix"]

/-- Modelled from the spec: aggressive mode widens the keyword set with the
boilerplate section markers named by the UI (ESG/CSR etc.; spec 4.1). -/
def aggressiveKeywords : List String :=
  baseKeywords ++ ["esg", "csr", "sustainability"]

/-- Keyword set selected by the aggressive flag. -/
def keywordSet (aggressive : Bool) : List String :=
  if aggressive then aggressiveKeywords else baseKeywords

/-- A keyword matches a page when it occurs, case-insensitively, inside the
page text. -/
def textMatchesKeyword (text kw : String) : Bool :=
  decide (kw.data <:+: text.data.map Char.toLower)

/-- Modelled from the spec: the per-page rule of the autocut heuristic.  A page
is proposed for removal when its extracted text is non-empty and matches a
keyword of the selected set; pages with no extracted text are never auto-cut
(spec 4.1 edge case). -/
def pageShouldCut (aggressive : Bool) (text : String) : Bool :=
  !(trimChars text.data).isEmpty &&
    (keywordSet aggressive).any (fun kw => textMatchesKeyword text kw)

/-- The page text at 0-based index i, with empty text for an out-of-range
index. -/
def pageTextAt (texts : List String) (i : Nat) : String :=
  (texts.get? i).getD ""

/-- Modelled from the spec: the autocut suggestion over a document, as the list
of 1-based page indices the per-page rule proposes for removal. -/
def autocutSuggest (aggressive : Bool) (texts : List String) : List Nat :=
  (List.range texts.length).filterMap
    (fun i => if pageShouldCut aggressive (pageTextAt texts i) then some (i + 1) else none)

/-! ## Industry reference data (modelled from spec 3 / 6) -/

/-- A scoring factor of an industry, with its percentage weight. -/
structure Factor where
  key : String
  label : String
  weight : Nat
deriving DecidableEq, Repr

/-- An industry of the reference data provider. -/
structure Industry where
  key : String
  name : String
  factors : List Factor
deriving DecidableEq, Repr

/-- Modelled from the spec: one industry of the reference data provider. -/
def manufacturingIndustry : Industry :=
  { key := "manufacturing", name := "Manufacturing"
    factors :=
      [ ⟨"scale", "Scale", 20⟩
      , ⟨"leverage", "Leverage and coverage", 40⟩
      , ⟨"profitability", "Profitability", 25⟩
      , ⟨"business_profile", "Business profile", 15⟩ ] }

/-- Modelled from the spec: one industry of the reference data provider. -/
def utilitiesIndustry : Industry :=
  { key := "utilities", name := "Utilities"
    factors :=
      [ ⟨"regulatory", "Regulatory framework", 25⟩
      , ⟨"cost_recovery", "Ability to recover costs", 25⟩
      , ⟨"diversification", "Diversification", 10⟩
      , ⟨"financial_strength", "Financial strength", 40⟩ ] }

/-- Modelled from the spec: one industry of the reference data provider. -/
def retailIndustry : Industry :=
  { key := "retail", name := "Retail"
    factors :=
      [ ⟨"scale", "Scale", 30⟩
      , ⟨"execution", "Execution and competitive position", 30⟩
      , ⟨"leverage", "Leverage and coverage", 40⟩ ] }

/-- Modelled from the spec: the industry reference data provider behind
`GET /industries` is not part of the shipped sources.  Its table is modelled
from the spec data model (spec 3: factor weights for an industry sum to a
fixed total of 100). -/
def industries : List Industry :=
  [manufacturingIndustry, utilitiesIndustry, retailIndustry]

/-! ## API key/model storage (frontend/src/main.js) -/

/-- The four browser-storage slots touched by main.js: OPENAI_KEY and
OPENAI_MODEL in localStorage and in sessionStorage. -/
structure Storage where
  lsKey : Option String
  lsModel : Option String
  ssKey : Option String
  ssModel : Option String
deriving DecidableEq, Repr

/-- The user-visible operations of the API-settings panel in main.js:
the saveOpenAI click (with the Remember checkbox state and the two text
fields) and the clearOpenAI click. -/
inductive StorageOp where
  | save (remember : Bool) (keyField modelField : String)
  | clear
deriving DecidableEq, Repr

/-- Embeds the saveOpenAI and clearOpenAI click handlers of main.js.
Save with Remember checked writes both localStorage entries and removes the
sessionStorage copies; unchecked does the reverse; clear removes all four and
resets the fields. -/
def applyStorageOp (_s : Storage) : StorageOp → Storage
  | .save remember keyField modelField =>
    let key := jsTrim keyField
    let model := if jsTrim modelField = "" then "gpt-4.1-mini" else jsTrim modelField
    if remember then
      { lsKey := some key, lsModel := some model, ssKey := none, ssModel := none }
    else
      { lsKey := none, lsModel := none, ssKey := some key, ssModel := some model }
  | .clear => { lsKey := none, lsModel := none, ssKey := none, ssModel := none }

/-- A sequence of save/clear operations applied in order. -/
def applyStorageOps (s : Storage) (ops : List StorageOp) : Storage :=
  ops.foldl applyStorageOp s

/-- An entry (key or model) lives in at most one of the two stores. -/
def atMostOneStore (s : Storage) : Prop :=
  ¬(s.lsKey.isSome = true ∧ s.ssKey.isSome = true) ∧
  ¬(s.lsModel.isSome = true ∧ s.ssModel.isSome = true)

instance : DecidablePred atMostOneStore := fun _ => by
  unfold atMostOneStore
  infer_instance

/-- Embeds getApiAuth of main.js: sessionStorage is read in preference to
localStorage, with "" and the default model as fallbacks. -/
def getApiAuth (s : Storage) : String × String :=
  ( (s.ssKey.orElse (fun _ => s.lsKey)).getD ""
  , (s.ssModel.orElse (fun _ => s.lsModel)).getD "gpt-4.1-mini" )

/-! ## Request issuing (main.js postJSON and the legacy page script) -/

/-- The key/model material attached to an HTTP request: the two custom headers
set by main.js postJSON, or the api_key body field sent by the legacy page
script. -/
structure IssuedRequest where
  headerKey : Option String
  headerModel : Option String
  bodyApiKey : Option String
deriving DecidableEq, Repr

/-- Embeds postJSON of main.js: when getApiAuth yields an empty key the
function throws before any fetch; otherwise the request carries the key and
model headers. -/
def mainPostJSON (s : Storage) : Except String IssuedRequest :=
  let auth := getApiAuth s
  if auth.1 = "" then
    Except.error "OpenAI key not set (paste it at the top and click Save)."
  else
    Except.ok { headerKey := some auth.1, headerModel := some auth.2, bodyApiKey := none }

/-- Embeds the estimateBtn click handler of the legacy page script: it alerts
and issues nothing without an uploaded file, and otherwise always issues the
request, with api_key as the trimmed key field or null when empty. -/
def legacyEstimateClick (uploadedId : Option Nat) (apiKeyField : String) :
    Option IssuedRequest :=
  match uploadedId with
  | none => none
  | some _ =>
    let key := jsTrim apiKeyField
    some { headerKey := none, headerModel := none
           bodyApiKey := if key = "" then none else some key }

/-- Embeds the analyzeBtn click handler of the legacy page script, which
issues its request with api_key as key-or-null exactly like the estimate
handler. -/
def legacyAnalyzeClick (uploadedId : Option Nat) (apiKeyField : String) :
    Option IssuedRequest :=
  match uploadedId with
  | none => none
  | some _ =>
    let key := jsTrim apiKeyField
    some { headerKey := none, headerModel := none
           bodyApiKey := if key = "" then none else some key }

/-! ## Result rendering (ResultsTable.jsx and the legacy analyze handler) -/

/-- A raw row of the structured LLM response, with every field possibly
missing or absent. -/
structure RawRow where
  factor : Option String := none
  label : Option String := none
  value : Option String := none
  band : Option String := none
  weight : Option String := none
  weighted_score : Option String := none
  notes : Option String := none
  description : Option String := none
  score : Option String := none
deriving DecidableEq, Repr

/-- The raw /score (or /analyze) response; every field may be missing. -/
structure RawResult where
  table : Option (List RawRow) := none
  composite_score : Option String := none
  final_rating : Option String := none
deriving DecidableEq, Repr

/-- JavaScript nullish coalescing: v with a fallback for null/undefined only,
as in the expression v two-question-marks d. -/
def jsNullish (v : Option String) (d : String) : String := v.getD d

/-- JavaScript logical-or fallback as used in r.factor-or-r.label: an
undefined or empty (falsy) left operand yields the right operand. -/
def jsFalsyOr (a b : Option String) : Option String :=
  match a with
  | some s => if s = "" then b else some s
  | none => b

/-- React rendering of a possibly-undefined expression inside a table cell:
undefined renders as nothing (an empty cell). -/
def reactCell (v : Option String) : String := v.getD ""

/-- JavaScript template-literal interpolation of a possibly-undefined value:
undefined is stringified to the text "undefined". -/
def jsInterp (v : Option String) : String :=
  match v with
  | some s => s
  | none => "undefined"

/-- A rendered row of the React ScoreBreakdown table (ResultsTable.jsx). -/
structure RenderedRow where
  factor : String
  value : String
  band : String
  weight : String
  weighted_score : String
  notes : String
deriving DecidableEq, Repr

/-- Embeds one body row of ResultsTable.jsx: factor falls back to label and
every other cell uses a nullish default of the empty string. -/
def renderScoreRow (r : RawRow) : RenderedRow :=
  { factor := reactCell (jsFalsyOr r.factor r.label)
    value := jsNullish r.value ""
    band := jsNullish r.band ""
    weight := jsNullish r.weight ""
    weighted_score := jsNullish r.weighted_score ""
    notes := jsNullish r.notes "" }

/-- Embeds ResultsTable.jsx as a whole: the row list defaults to empty, and
the composite score and final rating render an em-dash when missing. -/
def renderResultsTable (res : RawResult) : List RenderedRow × String × String :=
  ( ((res.table).getD []).map renderScoreRow
  , jsNullish res.composite_score "—"
  , jsNullish res.final_rating "—" )

/-- A rendered row of the legacy results table (the analyzeBtn handler of the
legacy page script). -/
structure LegacyRenderedRow where
  factor : String
  weight : String
  description : String
  score : String
deriving DecidableEq, Repr

/-- Embeds one row of the legacy results table: the factor cell interpolates
r.factor with no default, weight and score default to the empty string, and
description falls back to value and then to the empty string. -/
def renderLegacyRow (r : RawRow) : LegacyRenderedRow :=
  { factor := jsInterp r.factor
    weight := jsNullish r.weight ""
    description := jsNullish ((r.description).orElse (fun _ => r.value)) ""
    score := jsNullish r.score "" }

/-- Embeds the result rendering of the legacy analyzeBtn handler: the
breakdown defaults to an empty row list and the final line uses em-dash
defaults; rendering is total on every response shape. -/
def renderLegacyResult (breakdown : Option (List RawRow))
    (finalRating compositeScore : Option String) :
    List LegacyRenderedRow × String :=
  ( (breakdown.getD []).map renderLegacyRow
  , "Final rating: " ++ jsNullish finalRating "—" ++
      " | Composite score: " ++ jsNullish compositeScore "—" )

/-! ## File drop handling (frontend/src/components/FileDrop.js) -/

/-- A DOM file as seen by the drop handler; only the name matters. -/
structure DomFile where
  name : String
deriving DecidableEq, Repr

/-- Embeds the test of the regular expression backslash-dot-pdf-dollar with
the i flag: the file name, lowercased character-wise, ends in ".pdf". -/
def pdfNameTest (name : String) : Bool :=
  List.isSuffixOf ".pdf".toList (name.toList.map Char.toLower)

/-- Embeds handleFiles of FileDrop.js, returning the file passed to onFile
when the callback fires and none otherwise: an empty list returns early, a
first file failing the pdf test alerts and returns, and otherwise onFile
receives the first file. -/
def handleFiles (files : List DomFile) : Option DomFile :=
  match files.head? with
  | none => none
  | some f => if pdfNameTest f.name then some f else none

/-! ## Mode radio selection (legacy page script) -/

/-- One of the mode radio inputs of the legacy page. -/
structure ModeRadio where
  value : String
  checked : Bool
deriving DecidableEq, Repr

/-- Embeds the mode computation of the legacy estimate and analyze handlers:
the value of the checked radio, with "text" when none is checked. -/
def pickedMode (radios : List ModeRadio) : String :=
  ((radios.find? (fun r => r.checked)).map (fun r => r.value)).getD "text"

/-! ## Upload / preprocess / reset session model (App.js plus the backend
document store modelled from spec 2 and 6) -/

/-- A PDF blob held by the browser, abstracted to its per-page extracted
texts; the original page count is the length of this list. -/
structure Blob where
  pages : List String
deriving DecidableEq, Repr

/-- A document held by the backend for one file id. -/
structure Doc where
  pageTexts : List String
deriving DecidableEq, Repr

/-- Modelled from the spec: the backend in-memory document store, keyed by
the session-scoped file id (spec 2: the upload handler assigns a
session-scoped identifier and holds bytes in memory).  Ids are list
positions. -/
structure ServerState where
  docs : List Doc
deriving DecidableEq, Repr

/-- Modelled from the spec: `POST /upload` stores the blob as a fresh
document and returns its new file id. -/
def uploadDoc (srv : ServerState) (b : Blob) : Nat × ServerState :=
  (srv.docs.length, ⟨srv.docs ++ [⟨b.pages⟩]⟩)

/-- Modelled from the spec: the server side of `POST /preprocess-pdf` derives
a filtered document from the stored one, dropping the removed pages, and
returns a derived file id.  An unknown file id leaves the store unchanged. -/
def preprocessOnServer (srv : ServerState) (fid : Nat) (aggressive : Bool)
    (forceCut forceKeep : String) : Nat × ServerState :=
  match srv.docs.get? fid with
  | none => (fid, srv)
  | some d =>
    let res := preprocessPdf d.pageTexts.length
      (autocutSuggest aggressive d.pageTexts) forceCut forceKeep
    let keptTexts := res.kept_pages.filterMap (fun p => d.pageTexts.get? (p - 1))
    (srv.docs.length, ⟨srv.docs ++ [⟨keptTexts⟩]⟩)

/-- The App.js component state relevant to upload, preprocess and reset. -/
structure ClientState where
  file : Option Blob
  fileId : Option Nat
  cutForce : String
  keepForce : String
  pagesToRemoveRaw : String
deriving DecidableEq, Repr

/-- The whole browser-plus-backend session. -/
structure Sys where
  client : ClientState
  server : ServerState
deriving DecidableEq, Repr

/-- Embeds onUpload of App.js: remember the blob, clear the page lists, and
upload it for a fresh file id. -/
def doUpload (sys : Sys) (b : Blob) : Sys :=
  let up := uploadDoc sys.server b
  { client := { file := some b, fileId := some up.1
                cutForce := "", keepForce := "", pagesToRemoveRaw := "" }
    server := up.2 }

/-- Embeds ensureUploaded of App.js: reuse the current file id, else upload
the remembered file, else fail (no PDF yet). -/
def ensureUploaded (sys : Sys) : Option (Nat × Sys) :=
  match sys.client.fileId with
  | some fid => some (fid, sys)
  | none =>
    match sys.client.file with
    | none => none
    | some b =>
      let up := uploadDoc sys.server b
      some (up.1, { sys with
        client := { sys.client with fileId := some up.1 }, server := up.2 })

/-- Embeds onPreprocess of App.js: ensure an upload, run the preprocess route
with the current force lists and aggressive flag, and adopt the returned
(possibly derived) file id.  The remembered original file is untouched. -/
def doPreprocess (sys : Sys) (aggressive : Bool) (fc fk : String) : Sys :=
  match ensureUploaded sys with
  | none => sys
  | some (fid, sys1) =>
    let pre := preprocessOnServer sys1.server fid aggressive fc fk
    { sys1 with client := { sys1.client with fileId := some pre.1 }, server := pre.2 }

/-- Embeds onReset of App.js: with no remembered file it only toasts;
otherwise it re-uploads the original blob, adopts the fresh id and clears the
page lists. -/
def doReset (sys : Sys) : Sys :=
  match sys.client.file with
  | none => sys
  | some b =>
    let up := uploadDoc sys.server b
    { client := { sys.client with
        fileId := some up.1
        cutForce := ""
        keepForce := ""
        pagesToRemoveRaw := "" }
      server := up.2 }

/-- One preprocess invocation: its aggressive flag and force lists. -/
structure PreOp where
  aggressive : Bool
  forceCut : String
  forceKeep : String
deriving DecidableEq, Repr

/-- A sequence of preprocess invocations applied in order. -/
def applyPreOps (ops : List PreOp) (sys : Sys) : Sys :=
  ops.foldl (fun s op => doPreprocess s op.aggressive op.forceCut op.forceKeep) sys

/-- The page count of the document the session currently points at. -/
def activePageCount (sys : Sys) : Option Nat :=
  sys.client.fileId.bind (fun fid => (sys.server.docs.get? fid).map (fun d => d.pageTexts.length))

/-! ## Theorems -/

/-- C1: For every document and every rendering mode ("text", "text+layout",
"page_images"), the estimated cost returned by the /estimate
(/estimate_tokens_cost) operation is monotonically non-decreasing in the
number of retained pages: retaining at least as many pages yields a cost that
is greater than or equal. -/
theorem estimate_cost_monotone_in_retained_pages (mode : String) (p q : Nat)
    (h : q ≤ p) :
    (estimateTokensCost mode q).cost_nano_usd ≤
      (estimateTokensCost mode p).cost_nano_usd := by
  unfold estimateTokensCost
  exact Nat.add_le_add_right
    (Nat.mul_le_mul_right _ (Nat.mul_le_mul_right _ h)) _

/-- Witness for C1: a concrete pair of estimates with 2 and 3 retained
pages in mode "text". -/
theorem estimate_cost_monotone_witness :
    (estimateTokensCost "text" 2).cost_nano_usd ≤
      (estimateTokensCost "text" 3).cost_nano_usd :=
  estimate_cost_monotone_in_retained_pages "text" 3 2 (by decide)

/-- C2: For every call to the /preprocess-pdf operation, with any force_keep
list, any force_cut list and any autocut suggestion (hence any aggressive
flag), no page index contained in force_keep appears in the pages_removed set
of the result. -/
theorem force_keep_never_removed (pageCount : Nat) (suggestion : List Nat)
    (forceCut forceKeep : String) (p : Nat) (hp : p ∈ parsePageList forceKeep) :
    p ∉ (preprocessPdf pageCount suggestion forceCut forceKeep).pages_removed := by
  intro hmem
  unfold preprocessPdf at hmem
  simp only [List.mem_filter, Bool.and_eq_true, Bool.not_eq_true',
    decide_eq_true_eq, decide_eq_false_iff_not] at hmem
  exact hmem.2.2 hp

/-- Witness for C2: page 2 of the force_keep list "1-3" is not removed even
though it appears in the suggestion. -/
theorem force_keep_never_removed_witness :
    2 ∉ (preprocessPdf 10 [2, 5] "7" "1-3").pages_removed :=
  force_keep_never_removed 10 [2, 5] "7" "1-3" 2 (by decide)

/-- C3: For every industry supplied by the industry reference data provider
(GET /industries), the sum of the weights of the factors of that industry
equals 100. -/
theorem industry_factor_weights_sum_100 (ind : Industry) (h : ind ∈ industries) :
    (ind.factors.map (fun f => f.weight)).sum = 100 := by
  fin_cases h <;> rfl

/-- Witness for C3: the manufacturing industry of the table. -/
theorem industry_factor_weights_sum_100_witness :
    (manufacturingIndustry.factors.map (fun f => f.weight)).sum = 100 :=
  industry_factor_weights_sum_100 manufacturingIndustry (by decide)

/-- C6: For every estimate request in which the rendering mode is missing or
invalid, the estimator does not fail: a missing mode radio selection defaults
to "text" on the client, and an invalid mode yields the same (total)
token/cost estimate as mode "text". -/
theorem estimate_mode_defaults_to_text :
    (∀ radios : List ModeRadio, radios.find? (fun r => r.checked) = none →
      pickedMode radios = "text") ∧
    (∀ (mode : String) (pages : Nat), validModes.contains mode = false →
      estimateTokensCost mode pages = estimateTokensCost "text" pages) := by
  constructor
  · intro radios h
    simp [pickedMode, h]
  · intro mode pages h
    have h2 : mode ∉ validModes := by simpa using h
    simp [estimateTokensCost, tokensPerPage, normalizeMode, h2]

/-- Witness for C6: no radio checked yields "text", and the invalid mode
"bogus" estimates as "text" does. -/
theorem estimate_mode_defaults_to_text_witness :
    pickedMode [] = "text" ∧
      estimateTokensCost "bogus" 5 = estimateTokensCost "text" 5 :=
  ⟨estimate_mode_defaults_to_text.1 [] rfl,
   estimate_mode_defaults_to_text.2 "bogus" 5 (by decide)⟩

/-- C5 counterexample: the claim that missing fields always become empty-cell
defaults fails on the legacy results table: a response row with no factor
field renders the literal text "undefined" in the factor cell, which is not
an empty cell. -/
theorem missing_factor_renders_undefined_in_legacy_table :
    (renderLegacyRow {}).factor = "undefined" ∧ (renderLegacyRow {}).factor ≠ "" := by
  constructor
  · rfl
  · decide

/-- C5 (amended): in the React ScoreBreakdown table every missing or
malformed field renders as an empty cell, and rendering is total (a missing
table renders no rows rather than failing); in the legacy results table the
weight, description and score cells get empty defaults but a missing factor
field renders the text "undefined". -/
theorem render_missing_fields_defaults :
    (∀ r : RawRow, r.factor = none → r.label = none → (renderScoreRow r).factor = "") ∧
    (∀ r : RawRow, r.value = none → (renderScoreRow r).value = "") ∧
    (∀ r : RawRow, r.band = none → (renderScoreRow r).band = "") ∧
    (∀ r : RawRow, r.weight = none → (renderScoreRow r).weight = "") ∧
    (∀ r : RawRow, r.weighted_score = none → (renderScoreRow r).weighted_score = "") ∧
    (∀ r : RawRow, r.notes = none → (renderScoreRow r).notes = "") ∧
    (∀ res : RawResult, res.table = none →
      renderResultsTable res =
        ([], jsNullish res.composite_score "—", jsNullish res.final_rating "—")) ∧
    (∀ r : RawRow, r.weight = none → (renderLegacyRow r).weight = "") ∧
    (∀ r : RawRow, r.description = none → r.value = none →
      (renderLegacyRow r).description = "") ∧
    (∀ r : RawRow, r.score = none → (renderLegacyRow r).score = "") ∧
    (∀ r : RawRow, r.factor = none → (renderLegacyRow r).factor = "undefined") ∧
    (∀ fr cs : Option String, (renderLegacyResult none fr cs).1 = []) := by
  refine ⟨?_, ?_, ?_, ?_, ?_, ?_, ?_, ?_, ?_, ?_, ?_, ?_⟩
  · intro r h1 h2
    simp [renderScoreRow, reactCell, jsFalsyOr, h1, h2]
  · intro r h
    simp [renderScoreRow, jsNullish, h]
  · intro r h
    simp [renderScoreRow, jsNullish, h]
  · intro r h
    simp [renderScoreRow, jsNullish, h]
  · intro r h
    simp [renderScoreRow, jsNullish, h]
  · intro r h
    simp [renderScoreRow, jsNullish, h]
  · intro res h
    simp [renderResultsTable, h]
  · intro r h
    simp [renderLegacyRow, jsNullish, h]
  · intro r h1 h2
    simp [renderLegacyRow, jsNullish, h1, h2]
  · intro r h
    simp [renderLegacyRow, jsNullish, h]
  · intro r h
    simp [renderLegacyRow, jsInterp, h]
  · intro fr cs
    simp [renderLegacyResult]

/-- Witness for C5 (amended): the all-missing row renders empty React cells,
an "undefined" legacy factor cell, and a missing table renders no rows. -/
theorem render_missing_fields_defaults_witness :
    (renderScoreRow {}).value = "" ∧
      (renderLegacyRow {}).factor = "undefined" ∧
      (renderResultsTable {}).1 = [] := by
  refine ⟨render_missing_fields_defaults.2.1 {} rfl,
    render_missing_fields_defaults.2.2.2.2.2.2.2.2.2.2.1 {} rfl, ?_⟩
  have h := render_missing_fields_defaults.2.2.2.2.2.2.1 {} rfl
  rw [h]

/-- C7 counterexample: a missing API key is not always caught client-side:
with an uploaded file and an empty key field, the legacy analyze handler
still issues its HTTP request, sending a null api_key to the server. -/
theorem legacy_analyze_sends_request_without_key :
    legacyAnalyzeClick (some 0) "" =
      some { headerKey := none, headerModel := none, bodyApiKey := none } := by
  decide

/-- C7 (amended): the main.js postJSON helper checks the key client-side and
raises before any HTTP request is issued when the key is absent, but the
legacy estimate and analyze handlers issue their requests regardless, sending
a null api_key to the server. -/
theorem missing_key_precondition :
    (∀ s : Storage, (getApiAuth s).1 = "" →
      mainPostJSON s =
        Except.error "OpenAI key not set (paste it at the top and click Save).") ∧
    (∀ (uid : Nat) (k : String), jsTrim k = "" →
      legacyAnalyzeClick (some uid) k = some ⟨none, none, none⟩ ∧
        legacyEstimateClick (some uid) k = some ⟨none, none, none⟩) := by
  constructor
  · intro s h
    simp [mainPostJSON, h]
  · intro uid k h
    constructor
    · simp [legacyAnalyzeClick, h]
    · simp [legacyEstimateClick, h]

/-- Witness for C7 (amended): empty storage makes postJSON raise, and the
legacy analyze click with an empty key field still issues a request. -/
theorem missing_key_precondition_witness :
    mainPostJSON ⟨none, none, none, none⟩ =
        Except.error "OpenAI key not set (paste it at the top and click Save)." ∧
      legacyAnalyzeClick (some 0) "" = some ⟨none, none, none⟩ :=
  ⟨missing_key_precondition.1 ⟨none, none, none, none⟩ rfl,
   (missing_key_precondition.2 0 "" (by decide)).1⟩

/-- C10: the file-drop handler invokes the upload callback only when the file
list is non-empty and the name of the first file ends in ".pdf" case-insensitively;
an empty list or a first file with any other name never triggers onFile. -/
theorem filedrop_invokes_only_on_pdf (files : List DomFile) :
    (∀ f, handleFiles files = some f →
      files.head? = some f ∧ pdfNameTest f.name = true) ∧
    (files.head? = none → handleFiles files = none) ∧
    (∀ f, files.head? = some f → pdfNameTest f.name = false →
      handleFiles files = none) := by
  refine ⟨?_, ?_, ?_⟩
  · intro f h
    unfold handleFiles at h
    cases hh : files.head? with
    | none => rw [hh] at h; exact absurd h (by simp)
    | some g =>
      rw [hh] at h
      dsimp only at h
      by_cases hp : pdfNameTest g.name = true
      · simp only [hp, if_true, Option.some.injEq] at h
        subst h
        exact ⟨rfl, hp⟩
      · simp [hp] at h
  · intro h
    unfold handleFiles
    rw [h]
  · intro f h hp
    unfold handleFiles
    rw [h]
    dsimp only
    simp [hp]

/-- Witness for C10: a dropped text file does not trigger the callback, and a
callback invocation came from a first file passing the pdf test. -/
theorem filedrop_invokes_only_on_pdf_witness :
    handleFiles [⟨"notes.txt"⟩] = none ∧
      ([(⟨"Report.PDF"⟩ : DomFile)].head? = some ⟨"Report.PDF"⟩ ∧
        pdfNameTest "Report.PDF" = true) :=
  ⟨(filedrop_invokes_only_on_pdf [⟨"notes.txt"⟩]).2.2 ⟨"notes.txt"⟩ rfl (by decide),
   (filedrop_invokes_only_on_pdf [⟨"Report.PDF"⟩]).1 ⟨"Report.PDF"⟩ (by decide)⟩

/-- Helper: the per-page autocut rule never fires on a page whose extracted
text is empty. -/
theorem pageShouldCut_empty (aggressive : Bool) : pageShouldCut aggressive "" = false := by
  cases aggressive <;> rfl

/-- C8: For every page of a document whose extracted text is empty, the
autocut heuristic never proposes that page for removal, in both aggressive
and non-aggressive modes. -/
theorem empty_page_never_autocut (aggressive : Bool) (texts : List String)
    (i : Nat) (h : texts.get? (i - 1) = some "") :
    i ∉ autocutSuggest aggressive texts := by
  intro hmem
  unfold autocutSuggest at hmem
  simp only [List.mem_filterMap, List.mem_range] at hmem
  obtain ⟨j, _, hcut⟩ := hmem
  by_cases hc : pageShouldCut aggressive (pageTextAt texts j) = true
  · simp only [hc, if_true, Option.some.injEq] at hcut
    subst hcut
    have hj : pageTextAt texts j = "" := by
      unfold pageTextAt
      rw [Nat.add_sub_cancel] at h
      rw [h]
      rfl
    rw [hj, pageShouldCut_empty] at hc
    exact Bool.false_ne_true hc
  · simp [hc] at hcut

/-- Witness for C8: page 1 has empty text and is not suggested. -/
theorem empty_page_never_autocut_witness :
    1 ∉ autocutSuggest true ["", "glossary of terms"] :=
  empty_page_never_autocut true ["", "glossary of terms"] 1 (by decide)

/-- Helper: each single save or clear click leaves every entry in at most one
store. -/
theorem applyStorageOp_atMostOne (s : Storage) (op : StorageOp) :
    atMostOneStore (applyStorageOp s op) := by
  cases op with
  | save remember keyField modelField =>
    unfold applyStorageOp atMostOneStore
    by_cases hr : remember = true
    · simp [hr]
    · simp [hr]
  | clear =>
    unfold applyStorageOp atMostOneStore
    simp

/-- C9: After any non-empty sequence of save and clear operations on the API
settings, the OPENAI_KEY and OPENAI_MODEL entries live in at most one of
localStorage and sessionStorage, never both; and getApiAuth reads
sessionStorage in preference to localStorage. -/
theorem storage_entries_in_at_most_one_store (s : Storage) (ops : List StorageOp)
    (h : ops ≠ []) :
    atMostOneStore (applyStorageOps s ops) ∧
      (∀ (t : Storage) (k m : String),
        (t.ssKey = some k → (getApiAuth t).1 = k) ∧
          (t.ssModel = some m → (getApiAuth t).2 = m)) := by
  constructor
  · induction ops generalizing s with
    | nil => exact absurd rfl h
    | cons op rest ih =>
      cases rest with
      | nil => exact applyStorageOp_atMostOne s op
      | cons op2 rest2 =>
        have : applyStorageOps s (op :: op2 :: rest2) =
            applyStorageOps (applyStorageOp s op) (op2 :: rest2) := rfl
        rw [this]
        exact ih (applyStorageOp s op) (by simp)
  · intro t k m
    constructor
    · intro hk
      simp [getApiAuth, hk, Option.orElse]
    · intro hm
      simp [getApiAuth, hm, Option.orElse]

/-- Witness for C9: a clear click from a fully-populated storage satisfies
the invariant, and getApiAuth prefers the session key. -/
theorem storage_entries_witness :
    atMostOneStore
        (applyStorageOps ⟨some "a", some "b", some "c", some "d"⟩ [StorageOp.clear]) ∧
      (getApiAuth ⟨some "a", some "b", some "c", some "d"⟩).1 = "c" :=
  ⟨(storage_entries_in_at_most_one_store ⟨some "a", some "b", some "c", some "d"⟩
      [StorageOp.clear] (by simp)).1,
   ((storage_entries_in_at_most_one_store ⟨none, none, none, none⟩
      [StorageOp.clear] (by simp)).2 ⟨some "a", some "b", some "c", some "d"⟩
      "c" "d").1 rfl⟩

/-- Helper: ensureUploaded never changes the remembered original file. -/
theorem ensureUploaded_preserves_file {sys : Sys} {fid : Nat} {sys1 : Sys}
    (h : ensureUploaded sys = some (fid, sys1)) :
    sys1.client.file = sys.client.file := by
  unfold ensureUploaded at h
  cases hf : sys.client.fileId with
  | some i =>
    rw [hf] at h
    dsimp only at h
    simp only [Option.some.injEq, Prod.mk.injEq] at h
    rw [← h.2]
  | none =>
    rw [hf] at h
    dsimp only at h
    cases hb : sys.client.file with
    | none =>
      rw [hb] at h
      exact absurd h (by simp)
    | some bb =>
      rw [hb] at h
      dsimp only at h
      simp only [Option.some.injEq, Prod.mk.injEq] at h
      rw [← h.2]

/-- Helper: a preprocess invocation never changes the remembered original
file. -/
theorem doPreprocess_preserves_file (sys : Sys) (a : Bool) (fc fk : String) :
    (doPreprocess sys a fc fk).client.file = sys.client.file := by
  unfold doPreprocess
  cases he : ensureUploaded sys with
  | none => rfl
  | some pr =>
    obtain ⟨fid, sys1⟩ := pr
    dsimp only
    exact ensureUploaded_preserves_file he

/-- Helper: a whole sequence of preprocess invocations never changes the
remembered original file. -/
theorem applyPreOps_preserves_file (ops : List PreOp) (sys : Sys) :
    (applyPreOps ops sys).client.file = sys.client.file := by
  induction ops generalizing sys with
  | nil => rfl
  | cons op rest ih =>
    have hstep : applyPreOps (op :: rest) sys =
        applyPreOps rest (doPreprocess sys op.aggressive op.forceCut op.forceKeep) := rfl
    rw [hstep, ih]
    exact doPreprocess_preserves_file sys op.aggressive op.forceCut op.forceKeep

/-- Helper: resetting a session that remembers the original blob points the
session at a full re-upload of that blob. -/
theorem doReset_page_count (sys : Sys) (b : Blob) (h : sys.client.file = some b) :
    activePageCount (doReset sys) = some b.pages.length := by
  simp [doReset, h, activePageCount, uploadDoc, List.getElem?_concat_length]

/-- C4: For every uploaded document, performing the reset operation
immediately after upload, and after any sequence of preprocess/cut
operations, yields a document whose page count equals the original
unfiltered page count of the uploaded file. -/
theorem reset_restores_original_page_count (sys0 : Sys) (b : Blob)
    (ops : List PreOp) :
    activePageCount (doReset (applyPreOps ops (doUpload sys0 b))) =
      some b.pages.length := by
  apply doReset_page_count
  rw [applyPreOps_preserves_file]
  rfl

end CreditRater
